import Mathlib

/-!
# Verification development for the migration orchestrator core

Shallow embedding of

* `plugin/parser/ast/utils.go` (`Walk`),
* `plugin/db/clickhouse/clickhouse.go` (`Open`, `SyncSchema`, `getUserList`, `Execute`),
* `store/task_dag.go` (`CreateTaskDAG`, `FindTaskDAGList`, `GetTaskDAGByToTaskID`),

followed by the theorems that settle the specification claims.
-/

namespace ast

/-- Statement tree node (`ast.Node`).  One constructor per case of the type switch in `Walk`.
A pointer field that `Walk` guards with `!= nil` is an `Option`, a slice field that `Walk`
ranges over is a `List` of nodes (the elements of a child list are never nil); `data` stands for the remaining fields of the Go struct (names,
types, ...), which `Walk` never reads. -/
inductive Node (α : Type) where
  | AddColumnListStmt (data : α) (Table : Option (Node α)) (ColumnList : List (Node α))
  | AddConstraintStmt (data : α) (Table : Option (Node α)) (Constraint : Option (Node α))
  | AlterTableStmt (data : α) (Table : Option (Node α)) (AlterItemList : List (Node α))
  | ChangeColumnStmt (data : α) (Table : Option (Node α)) (Column : Option (Node α))
  | ColumnDef (data : α)
  | ConstraintDef (data : α) (Foreign : Option (Node α))
  | CreateTableStmt (data : α) (Name : Option (Node α)) (ColumnList : List (Node α))
      (ConstraintList : List (Node α))
  | DropConstraintStmt (data : α) (Table : Option (Node α))
  | ForeignDef (data : α) (Table : Option (Node α))
  | RenameColumnStmt (data : α) (Table : Option (Node α))
  | RenameConstraintStmt (data : α) (Table : Option (Node α))
  | RenameTableStmt (data : α) (Table : Option (Node α))
  | TableDef (data : α)


/-- The `Visitor` interface.  `V` is the set of visitor objects, `S` the state the visitors
may read and write; `Visit v node s` is the call `v.Visit(node)` in state `s`, returning the
continuation visitor (`none` for Go's `nil`) and the new state. -/
structure Visitor (α V S : Type) where
  Visit : V → Node α → S → Option V × S

/-- The `Visit` calls made by a run, in call order: receiver and argument. -/
abbrev Calls (α V : Type) := List (V × Node α)

/-- Sequential composition of two pieces of traversal: run `f`, then `g` in the state `f`
left, and concatenate the recorded calls. -/
def andThen {α V S : Type} (f g : S → S × Calls α V) (s : S) : S × Calls α V :=
  ((g (f s).1).1, (f s).2 ++ (g (f s).1).2)

/-- Nothing to traverse. -/
def skip {α V S : Type} (s : S) : S × Calls α V := (s, [])

/-- Lines 10-12 of `Walk`: `if v = v.Visit(node); v == nil { return }`, then the body of the
type switch run with the returned visitor. -/
def enter {α V S : Type} (vis : Visitor α V S) (v : V) (node : Node α)
    (children : V → S → S × Calls α V) (s : S) : S × Calls α V :=
  match vis.Visit v node s with
  | (none, s1) => (s1, [(v, node)])
  | (some w, s1) => ((children w s1).1, (v, node) :: (children w s1).2)

mutual
/-- Embedding of `Walk(v, node)`: returns the final state and the `Visit` calls made. -/
def Walk {α V S : Type} (vis : Visitor α V S) (v : V) : Node α → S → S × Calls α V
  | n@(.AddColumnListStmt _ t cols) =>
      enter vis v n (fun w => andThen (WalkOpt vis w t) (WalkList vis w cols))
  | n@(.AddConstraintStmt _ t c) =>
      enter vis v n (fun w => andThen (WalkOpt vis w t) (WalkOpt vis w c))
  | n@(.AlterTableStmt _ t items) =>
      enter vis v n (fun w => andThen (WalkOpt vis w t) (WalkList vis w items))
  | n@(.ChangeColumnStmt _ t c) =>
      enter vis v n (fun w => andThen (WalkOpt vis w t) (WalkOpt vis w c))
  | n@(.ColumnDef _) => enter vis v n (fun _ => skip)
  | n@(.ConstraintDef _ f) => enter vis v n (fun w => WalkOpt vis w f)
  | n@(.CreateTableStmt _ name cols cons) =>
      enter vis v n (fun w =>
        andThen (WalkOpt vis w name) (andThen (WalkList vis w cols) (WalkList vis w cons)))
  | n@(.DropConstraintStmt _ t) => enter vis v n (fun w => WalkOpt vis w t)
  | n@(.ForeignDef _ t) => enter vis v n (fun w => WalkOpt vis w t)
  | n@(.RenameColumnStmt _ t) => enter vis v n (fun w => WalkOpt vis w t)
  | n@(.RenameConstraintStmt _ t) => enter vis v n (fun w => WalkOpt vis w t)
  | n@(.RenameTableStmt _ t) => enter vis v n (fun w => WalkOpt vis w t)
  | n@(.TableDef _) => enter vis v n (fun _ => skip)
/-- The guarded call `if x != nil { Walk(v, x) }`. -/
def WalkOpt {α V S : Type} (vis : Visitor α V S) (v : V) :
    Option (Node α) → S → S × Calls α V
  | none => skip
  | some n => Walk vis v n
/-- The loop `for _, x := range xs { Walk(v, x) }`. -/
def WalkList {α V S : Type} (vis : Visitor α V S) (v : V) :
    List (Node α) → S → S × Calls α V
  | [] => skip
  | n :: ns => andThen (Walk vis v n) (WalkList vis v ns)
end

mutual
/-- The nodes of a tree in pre-order, children in declared order (the order the
specification documents). -/
def preorder {α : Type} : Node α → List (Node α)
  | n@(.AddColumnListStmt _ t cols) => n :: (preorderOpt t ++ preorderList cols)
  | n@(.AddConstraintStmt _ t c) => n :: (preorderOpt t ++ preorderOpt c)
  | n@(.AlterTableStmt _ t items) => n :: (preorderOpt t ++ preorderList items)
  | n@(.ChangeColumnStmt _ t c) => n :: (preorderOpt t ++ preorderOpt c)
  | n@(.ColumnDef _) => [n]
  | n@(.ConstraintDef _ f) => n :: preorderOpt f
  | n@(.CreateTableStmt _ name cols cons) =>
      n :: (preorderOpt name ++ (preorderList cols ++ preorderList cons))
  | n@(.DropConstraintStmt _ t) => n :: preorderOpt t
  | n@(.ForeignDef _ t) => n :: preorderOpt t
  | n@(.RenameColumnStmt _ t) => n :: preorderOpt t
  | n@(.RenameConstraintStmt _ t) => n :: preorderOpt t
  | n@(.RenameTableStmt _ t) => n :: preorderOpt t
  | n@(.TableDef _) => [n]
/-- Pre-order of an optional child. -/
def preorderOpt {α : Type} : Option (Node α) → List (Node α)
  | none => []
  | some n => preorder n
/-- Pre-order of a child list, in list order. -/
def preorderList {α : Type} : List (Node α) → List (Node α)
  | [] => []
  | n :: ns => preorder n ++ preorderList ns
end

mutual
/-- Number of nodes of a tree: the root and every node reachable through non-nil child
references. -/
def size {α : Type} : Node α → Nat
  | .AddColumnListStmt _ t cols => 1 + (sizeOpt t + sizeList cols)
  | .AddConstraintStmt _ t c => 1 + (sizeOpt t + sizeOpt c)
  | .AlterTableStmt _ t items => 1 + (sizeOpt t + sizeList items)
  | .ChangeColumnStmt _ t c => 1 + (sizeOpt t + sizeOpt c)
  | .ColumnDef _ => 1
  | .ConstraintDef _ f => 1 + sizeOpt f
  | .CreateTableStmt _ name cols cons => 1 + (sizeOpt name + (sizeList cols + sizeList cons))
  | .DropConstraintStmt _ t => 1 + sizeOpt t
  | .ForeignDef _ t => 1 + sizeOpt t
  | .RenameColumnStmt _ t => 1 + sizeOpt t
  | .RenameConstraintStmt _ t => 1 + sizeOpt t
  | .RenameTableStmt _ t => 1 + sizeOpt t
  | .TableDef _ => 1
/-- Number of nodes under an optional child. -/
def sizeOpt {α : Type} : Option (Node α) → Nat
  | none => 0
  | some n => size n
/-- Number of nodes under a child list. -/
def sizeList {α : Type} : List (Node α) → Nat
  | [] => 0
  | n :: ns => size n + sizeList ns
end

end ast

namespace clickhouse

/-- Go's `strings.Join(elems, sep)`. -/
def Join : List String → String → String
  | [], _ => ""
  | [a], _ => a
  | a :: b :: rest, sep => a ++ sep ++ Join (b :: rest) sep

/-- Go's `strings.HasPrefix(s, pre)`. -/
def HasPrefix (s pre : String) : Bool := pre.data.isPrefixOf s.data

/-- Whether `sub` occurs in `s` as a contiguous substring (Go's `strings.Contains`). -/
def Contains (s sub : String) : Prop := sub.data <:+: s.data

instance (s sub : String) : Decidable (Contains s sub) := by
  unfold Contains; infer_instance

/-- The fields of `db.ConnectionConfig` that `Open` reads.  `τ` is the type of the
`TlsConfig` field, whose declaration is outside the embedded files. -/
structure ConnectionConfig (τ : Type) where
  Host : String
  Port : String
  Username : String
  Password : String
  Database : String
  TlsConfig : τ

/-- The fields of `db.ConnectionContext` that `Open` reads. -/
structure ConnectionContext where
  EnvironmentName : String
  InstanceName : String
  deriving DecidableEq, Repr

/-- The calls `Open` makes into code outside the embedded files: `GetSslConfig` on the TLS
part of the configuration (`κ` is `*tls.Config`, `none` its nil), the ClickHouse client's
`RegisterTLSConfig` (`some err` on failure) and `sql.Open` (`δ` is `*sql.DB`). -/
structure Env (τ κ δ : Type) where
  GetSslConfig : τ → Except String (Option κ)
  RegisterTLSConfig : String → κ → Option String
  sqlOpen : String → String → Except String δ

/-- The receiver of `Open`: the `Driver` fields assigned by it (the logger is represented
by the recorded `debug` effects). -/
structure Driver (δ : Type) where
  connectionCtx : Option ConnectionContext
  dbType : Option String
  db : Option δ

/-- What `newDriver` returns: only the logger is set. -/
def newDriver {δ : Type} : Driver δ := ⟨none, none, none⟩

/-- Observable actions of `Open`, in program order. -/
inductive Effect where
  | registerTLS (key : String)
  | deregisterTLS (key : String)
  | debug (msg : String) (fields : List (String × String))
  | sqlOpen (driverName : String) (dsn : String)
  deriving DecidableEq, Repr

/-- How a call of `Open` ends: it returns a driver, returns an error, or panics. -/
inductive Outcome (δ : Type) where
  | returned (driver : Driver δ)
  | failed (err : String)
  | panicked (value : String)

/-- Result of a call of `Open`: how it ended and what it did. -/
structure OpenResult (δ : Type) where
  outcome : Outcome δ
  effects : List Effect

/-- The local `protocol` of `Open` (lines 48-51). -/
def protocol {τ : Type} (config : ConnectionConfig τ) : String :=
  if HasPrefix config.Host "/" then "unix" else "tcp"

/-- The local `port` of `Open` (lines 55-58). -/
def port {τ : Type} (config : ConnectionConfig τ) : String :=
  if config.Port = "" then "9000" else config.Port

/-- The local `baseDSN` of `Open` (line 59). -/
def baseDSN {τ : Type} (config : ConnectionConfig τ) : String :=
  protocol config ++ "://" ++ config.Host ++ ":" ++ port config ++ "?"

/-- The local `params` of `Open` when line 82 is reached; `tls` tells whether a TLS
configuration was registered (lines 53, 62-66, 79). -/
def paramsAtLog {τ : Type} (config : ConnectionConfig τ) (tls : Bool) : List String :=
  let params : List String := []
  let params := params ++ ["username=" ++ config.Username]
  let params := if config.Database ≠ "" then params ++ ["database=" ++ config.Database]
    else params
  if tls then params ++ ["tls_config=" ++ "db.clickhouse.tls"] else params

/-- The local `loggedDSN` of `Open` (line 82). -/
def loggedDSN {τ : Type} (config : ConnectionConfig τ) (tls : Bool) : String :=
  baseDSN config ++ Join (paramsAtLog config tls) "&" ++ "&password=<<redacted password>>"

/-- The local `dsn` of `Open` (lines 84-87). -/
def dsn {τ : Type} (config : ConnectionConfig τ) (tls : Bool) : String :=
  let params := paramsAtLog config tls
  let params := if config.Password ≠ "" then params ++ ["password=" ++ config.Password]
    else params
  baseDSN config ++ Join params "&"

/-- Lines 82-102 of `Open`: log, `sql.Open`, and either `panic(err)` or the assignment of
the driver fields. -/
def connect {τ κ δ : Type} (env : Env τ κ δ) (driver : Driver δ) (dbType : String)
    (config : ConnectionConfig τ) (connCtx : ConnectionContext) (tls : Bool) : OpenResult δ :=
  let log := Effect.debug "Opening ClickHouse driver"
    [("dsn", loggedDSN config tls), ("environment", connCtx.EnvironmentName),
      ("database", connCtx.InstanceName)]
  match env.sqlOpen "clickhouse" (dsn config tls) with
  | .error err => ⟨.panicked err, [log, .sqlOpen "clickhouse" (dsn config tls)]⟩
  | .ok db =>
      ⟨.returned { driver with dbType := some dbType, db := some db, connectionCtx := some connCtx },
        [log, .sqlOpen "clickhouse" (dsn config tls)]⟩

/-- Embedding of `Driver.Open`. -/
def Open {τ κ δ : Type} (env : Env τ κ δ) (driver : Driver δ) (dbType : String)
    (config : ConnectionConfig τ) (connCtx : ConnectionContext) : OpenResult δ :=
  match env.GetSslConfig config.TlsConfig with
  | .error err => ⟨.failed ("sql: tls config error: " ++ err), []⟩
  | .ok none => connect env driver dbType config connCtx false
  | .ok (some tlsConfig) =>
      let tlsKey := "db.clickhouse.tls"
      match env.RegisterTLSConfig tlsKey tlsConfig with
      | some err =>
          ⟨.failed ("sql: failed to register tls config: " ++ err), [.registerTLS tlsKey]⟩
      | none =>
          let r := connect env driver dbType config connCtx true
          -- the deferred `DeregisterTLSConfig` runs on return and on panic alike
          ⟨r.outcome, [.registerTLS tlsKey] ++ r.effects ++ [.deregisterTLS tlsKey]⟩

/-- The values of the `dsn` field of the debug log entries among the effects. -/
def loggedDSNs : List Effect → List String
  | [] => []
  | .debug _ fields :: rest =>
      ((fields.filter (fun kv => kv.1 = "dsn")).map Prod.snd) ++ loggedDSNs rest
  | _ :: rest => loggedDSNs rest

/-- Whether a call of `Open` panicked. -/
def OpenResult.panics {δ : Type} (r : OpenResult δ) : Bool :=
  match r.outcome with
  | .panicked _ => true
  | _ => false

/-- Whether a call of `Open` returned an error to its caller. -/
def OpenResult.returnsError {δ : Type} (r : OpenResult δ) : Bool :=
  match r.outcome with
  | .failed _ => true
  | _ => false

end clickhouse

namespace clickhouse

/-- The server behind `driver.db`, as far as `Execute` depends on it.  `σ` is the database
content.  `beginTx` and `commit` are the errors `BeginTx` and `Commit` report (if any);
`exec statement w` is what a statement does to the working state `w` of a transaction and
the error it reports: a failing statement may already have changed the working state. -/
structure Engine (σ : Type) where
  beginTx : Option String
  exec : String → σ → σ × Option String
  commit : Option String

/-- An open `*sql.Tx`: the state visible outside the transaction, the working state of
the transaction, and whether `Commit` or `Rollback` was already called. -/
structure Tx (σ : Type) where
  committed : σ
  working : σ
  done : Bool

/-- The error `database/sql` reports on a finished transaction. -/
def ErrTxDone : String := "sql: transaction has already been committed or rolled back"

/-- Embedding of `tx.ExecContext(ctx, statement)`. -/
def Tx.ExecContext {σ : Type} (eng : Engine σ) (tx : Tx σ) (statement : String) :
    Tx σ × Option String :=
  if tx.done then (tx, some ErrTxDone)
  else ({ tx with working := (eng.exec statement tx.working).1 },
    (eng.exec statement tx.working).2)

/-- Embedding of `tx.Commit()`: on success the working state becomes the visible state. -/
def Tx.Commit {σ : Type} (eng : Engine σ) (tx : Tx σ) : Tx σ × Option String :=
  if tx.done then (tx, some ErrTxDone)
  else match eng.commit with
    | some err => ({ tx with working := tx.committed, done := true }, some err)
    | none => ({ tx with committed := tx.working, done := true }, none)

/-- Embedding of `tx.Rollback()`: discards the working state, unless the transaction is finished. -/
def Tx.Rollback {σ : Type} (tx : Tx σ) : Tx σ × Option String :=
  if tx.done then (tx, some ErrTxDone)
  else ({ tx with working := tx.committed, done := true }, none)

/-- Calls `Execute` makes on the transaction, with the error each reported. -/
inductive TxCall where
  | BeginTx (err : Option String)
  | ExecContext (statement : String) (err : Option String)
  | Commit (err : Option String)
  | Rollback (err : Option String)
  deriving DecidableEq, Repr

/-- Result of `Execute`: the database state visible afterwards, the returned error and
the transaction calls made, in order. -/
structure ExecuteResult (σ : Type) where
  db : σ
  err : Option String
  calls : List TxCall

/-- Embedding of `Driver.Execute` (lines 206-220).  The deferred `tx.Rollback()` runs last. -/
def Execute {σ : Type} (eng : Engine σ) (db : σ) (statement : String) : ExecuteResult σ :=
  match eng.beginTx with
  | some err => ⟨db, some err, [.BeginTx (some err)]⟩
  | none =>
      let tx : Tx σ := ⟨db, db, false⟩
      let e := tx.ExecContext eng statement
      let c := e.1.Commit eng
      let ret := match c.2 with
        | some cerr => some cerr
        | none => e.2
      let r := c.1.Rollback
      ⟨r.1.committed, ret,
        [.BeginTx none, .ExecContext statement e.2, .Commit c.2, .Rollback r.2]⟩

/-- The `db.DBUser` fields `getUserList` fills. -/
structure DBUser where
  Name : String
  Grant : String
  deriving DecidableEq, Repr

/-- The `db.DBSchema` entries; `SyncSchema` never builds one. -/
structure DBSchema where
  Name : String
  deriving DecidableEq, Repr

/-- Errors of the introspection queries: an error passed on as reported, or wrapped by
`util.FormatErrorWithQuery(err, query)` (whose body is outside the embedded files). -/
inductive QueryError where
  | raw (err : String)
  | withQuery (err : String) (query : String)
  deriving DecidableEq, Repr

/-- What the rows of a single-column query deliver: for each row `Next` reports, the result
of `Scan` into a string. -/
abbrev Rows := List (Except String String)

/-- The connection as used by `getUserList`: the result of `QueryContext` per query text. -/
abbrev Conn := String → Except String Rows

/-- The query text of `getUserList` (lines 156-160). -/
def usersQuery : String := "\n\t  SELECT\n\t\t\tname\n\t\tFROM system.users\n\t"

/-- The inner loop of `getUserList` (lines 189-196): scan every grant row. -/
def scanGrants : Rows → List String → Except QueryError (List String)
  | [], grantList => .ok grantList
  | .error err :: _, _ => .error (.raw err)
  | .ok grant :: rest, grantList => scanGrants rest (grantList ++ [grant])

/-- The outer loop of `getUserList` (lines 169-202). -/
def scanUsers (conn : Conn) : Rows → List DBUser → Except QueryError (List DBUser)
  | [], userList => .ok userList
  | .error err :: _, _ => .error (.raw err)
  | .ok user :: rest, userList =>
      let query := "SHOW GRANTS FOR " ++ user
      match conn query with
      | .error err => .error (.withQuery err query)
      | .ok grantRows =>
          match scanGrants grantRows [] with
          | .error err => .error err
          | .ok grantList =>
              scanUsers conn rest (userList ++ [{ Name := user, Grant := Join grantList "\n" }])

/-- Embedding of `Driver.getUserList`. -/
def getUserList (conn : Conn) : Except QueryError (List DBUser) :=
  match conn usersQuery with
  | .error err => .error (.withQuery err usersQuery)
  | .ok userRows => scanUsers conn userRows []

/-- The package variable `systemDatabases`, as its key list. -/
def systemDatabases : List String := ["system"]

/-- The local `excludedDatabaseList` of `SyncSchema` (lines 134-142); it is built and
then not used. -/
def excludedDatabaseList : List String :=
  ["\x27bytebase\x27"] ++ systemDatabases.map (fun k => "\x27" ++ k ++ "\x27")

/-- Embedding of `Driver.SyncSchema`: the user list and a nil schema list. -/
def SyncSchema (conn : Conn) : Except QueryError (List DBUser × List DBSchema) :=
  match getUserList conn with
  | .error err => .error err
  | .ok userList => .ok (userList, [])

end clickhouse

namespace store

/-- A row of table `task_dag` as scanned by the store (Go `int`/`int64` as `Int`). -/
structure taskDAGRaw where
  ID : Int
  CreatedTs : Int
  UpdatedTs : Int
  FromTaskID : Int
  ToTaskID : Int
  Payload : String
  deriving DecidableEq, Repr

/-- The `api.TaskDAG` message, with the fields `toTaskDAG` fills. -/
structure TaskDAG where
  ID : Int
  CreatedTs : Int
  UpdatedTs : Int
  FromTaskID : Int
  ToTaskID : Int
  Payload : String
  deriving DecidableEq, Repr

/-- The `api.TaskDAGCreate` fields `createTaskDAGImpl` reads. -/
structure TaskDAGCreate where
  FromTaskID : Int
  ToTaskID : Int
  Payload : String
  deriving DecidableEq, Repr

/-- The `api.TaskDAGFind` field `findTaskDAGRawListImpl` reads. -/
structure TaskDAGFind where
  ToTaskID : Int
  deriving DecidableEq, Repr

/-- Embedding of `taskDAGRaw.toTaskDAG` (lines 25-34). -/
def taskDAGRaw.toTaskDAG (raw : taskDAGRaw) : TaskDAG :=
  { ID := raw.ID
    CreatedTs := raw.CreatedTs
    UpdatedTs := raw.UpdatedTs
    FromTaskID := raw.FromTaskID
    ToTaskID := raw.ToTaskID
    Payload := raw.Payload }

/-- Error codes of `common.Error` used here. -/
inductive Code where
  | Conflict
  deriving DecidableEq, Repr

/-- Errors the store returns: `FormatError(err)` of a database error (the body of
`FormatError` is outside the embedded files), `common.FormatDBErrorEmptyRowWithQuery`,
a `common.Error` with a code, and the `fmt.Errorf("... %w", ...)` wrappers. -/
inductive Error where
  | formatted (err : String)
  | emptyRow (query : String)
  | coded (code : Code) (msg : String)
  | wrapped (context : String) (inner : Error)
  deriving DecidableEq, Repr

/-- Failures the database may report to the store; `none` everywhere is a database that
answers every call. `scan` is the error of a `Scan` call and `rows` the error `rows.Err()`
reports after the iteration stopped having delivered the given number of rows. -/
structure Faults where
  beginTx : Option String
  query : Option String
  scan : Option String
  rows : Option (Nat × String)
  commit : Option String
  deriving DecidableEq, Repr

/-- No failure at all. -/
def Faults.none : Faults := ⟨Option.none, Option.none, Option.none, Option.none, Option.none⟩

/-- The database behind `s.db`: the rows of table `task_dag` in the order a scan returns
them, the value the next `id` default takes, the clock behind the `created_ts` and
`updated_ts` defaults, and the failures it reports. -/
structure DB where
  task_dag : List taskDAGRaw
  nextID : Int
  now : Int
  faults : Faults
  deriving DecidableEq, Repr

/-- The rows of a result set: what `Next`/`Scan` deliver, then the value of `Err()`. -/
structure Cursor where
  items : List (Except String taskDAGRaw)
  err : Option String
  deriving Repr

/-- Result set of a query that produces `rows` on a database with failures `f`. -/
def deliver (f : Faults) (rows : List taskDAGRaw) : Cursor :=
  let scanned : List (Except String taskDAGRaw) := rows.map (fun r =>
    match f.scan with
    | some err => .error err
    | Option.none => .ok r)
  match f.rows with
  | some (k, err) => ⟨scanned.take k, some err⟩
  | Option.none => ⟨scanned, Option.none⟩

/-- Embedding of `tx.QueryContext` of the `SELECT ... FROM task_dag WHERE to_task_id = $1` of
`findTaskDAGRawListImpl`, on table content `table`. -/
def selectByToTaskID (f : Faults) (table : List taskDAGRaw) (toTaskID : Int) :
    Except String Cursor :=
  match f.query with
  | some err => .error err
  | Option.none => .ok (deliver f (table.filter (fun r => r.ToTaskID = toTaskID)))

/-- The loop of `findTaskDAGRawListImpl` (lines 159-174). -/
def scanRows : List (Except String taskDAGRaw) → List taskDAGRaw →
    Except Error (List taskDAGRaw)
  | [], taskDAGRawList => .ok taskDAGRawList
  | .error err :: _, _ => .error (.formatted err)
  | .ok taskDAGRaw :: rest, taskDAGRawList => scanRows rest (taskDAGRawList ++ [taskDAGRaw])

/-- Embedding of `findTaskDAGRawListImpl` (lines 142-181) on the table content seen by the transaction. -/
def findTaskDAGRawListImpl (f : Faults) (table : List taskDAGRaw) (find : TaskDAGFind) :
    Except Error (List taskDAGRaw) :=
  match selectByToTaskID f table find.ToTaskID with
  | .error err => .error (.formatted err)
  | .ok rows =>
      match scanRows rows.items [] with
      | .error err => .error err
      | .ok taskDAGRawList =>
          match rows.err with
          | some err => .error (.formatted err)
          | Option.none => .ok taskDAGRawList

/-- Embedding of `Store.findTaskDAGRawList` (lines 88-100): a read-only transaction, rolled back on
return. -/
def findTaskDAGRawList (db : DB) (find : TaskDAGFind) : Except Error (List taskDAGRaw) :=
  match db.faults.beginTx with
  | some err => .error (.formatted err)
  | Option.none => findTaskDAGRawListImpl db.faults db.task_dag find

/-- Embedding of `Store.FindTaskDAGList` (lines 46-57). -/
def FindTaskDAGList (db : DB) (find : TaskDAGFind) : Except Error (List TaskDAG) :=
  match findTaskDAGRawList db find with
  | .error err => .error (.wrapped "failed to find TaskDAG with TaskDAGFind" err)
  | .ok taskDAGRawList => .ok (taskDAGRawList.map taskDAGRaw.toTaskDAG)

/-- Go's `%d`/`%v` rendering of an `int`. -/
def fmtInt (i : Int) : String := toString i

/-- Embedding of `Store.GetTaskDAGByToTaskID` (lines 59-69). -/
def GetTaskDAGByToTaskID (db : DB) (id : Int) : Except Error TaskDAG :=
  match FindTaskDAGList db { ToTaskID := id } with
  | .error err => .error err
  | .ok taskDAGList =>
      if h : taskDAGList.length ≠ 1 then
        .error (.coded .Conflict ("found " ++ fmtInt taskDAGList.length ++
          " tasks with ToTaskID " ++ fmtInt id ++ ", expect 1"))
      else .ok (taskDAGList.get ⟨0, by omega⟩)

/-- The query text of `createTaskDAGImpl` (lines 103-111). -/
def insertQuery : String :=
  "\n\t\tINSERT INTO task_dag (\n\t\t\tfrom_task_id,\n\t\t\tto_task_id,\n\t\t\tpayload\n\t\t)\n\t\tVALUES ($1, $2, $3)\n\t\tRETURNING id, created_ts, updated_ts, from_task_id, to_task_id, payload\n\t"

/-- The row the `INSERT` of `createTaskDAGImpl` adds: the three bound values, the next
`id` and the current time for both timestamps. -/
def insertedRow (db : DB) (create : TaskDAGCreate) : taskDAGRaw :=
  { ID := db.nextID
    CreatedTs := db.now
    UpdatedTs := db.now
    FromTaskID := create.FromTaskID
    ToTaskID := create.ToTaskID
    Payload := create.Payload }

/-- Embedding of `createTaskDAGImpl` (lines 102-140): the scanned `RETURNING` row, or the error. -/
def createTaskDAGImpl (db : DB) (create : TaskDAGCreate) : Except Error taskDAGRaw :=
  match db.faults.query with
  | some err => .error (.formatted err)
  | Option.none =>
      let row := deliver db.faults [insertedRow db create]
      match row.items with
      | .ok taskDAGRaw :: _ => .ok taskDAGRaw
      | .error err :: _ => .error (.formatted err)
      | [] =>
          match row.err with
          | some err => .error (.formatted err)
          | Option.none => .error (.emptyRow insertQuery)

/-- Embedding of `Store.createTaskDAGRaw` (lines 71-86): returns the result and the database after the
call.  The row is in the table afterwards only when `Commit` succeeded. -/
def createTaskDAGRaw (db : DB) (create : TaskDAGCreate) : Except Error taskDAGRaw × DB :=
  match db.faults.beginTx with
  | some err => (.error (.formatted err), db)
  | Option.none =>
      match createTaskDAGImpl db create with
      | .error err => (.error err, db)
      | .ok taskDAG =>
          match db.faults.commit with
          | some err => (.error (.formatted err), db)
          | Option.none =>
              (.ok taskDAG,
                { db with task_dag := db.task_dag ++ [insertedRow db create],
                          nextID := db.nextID + 1 })

/-- Embedding of `Store.CreateTaskDAG` (lines 36-44). -/
def CreateTaskDAG (db : DB) (create : TaskDAGCreate) : Except Error TaskDAG × DB :=
  match createTaskDAGRaw db create with
  | (.error err, db1) =>
      (.error (.wrapped "failed to create TaskDAG with TaskDAGCreate" err), db1)
  | (.ok taskDAGRaw, db1) => (.ok taskDAGRaw.toTaskDAG, db1)

end store

namespace taskgraph

/-- Modelled from the spec: a TaskDAG edge `(fromTaskID → toTaskID)`, meaning `fromTaskID`
must complete before `toTaskID` starts. -/
structure Edge where
  fromTaskID : Int
  toTaskID : Int
  deriving DecidableEq, Repr

/-- Modelled from the spec: the failure `ResolveOrder` reports on a cycle. -/
inductive ResolveError where
  | CycleError
  deriving DecidableEq, Repr

/-- Modelled from the spec: the task identifiers `ResolveOrder` has to order, which are the
given task set together with every endpoint of an edge, each once, in ascending order.
No implementation of the task dependency graph is among the embedded files. -/
def taskIDs (taskSet : List Int) (edges : List Edge) : List Int :=
  ((taskSet ++ edges.map Edge.fromTaskID ++ edges.map Edge.toTaskID).dedup).insertionSort
    (fun a b => a ≤ b)

/-- Modelled from the spec: a task "with no remaining unresolved prerequisites", that is,
no edge into `t` starts at a task that is still waiting to be ordered. -/
def ready (edges : List Edge) (remaining : List Int) (t : Int) : Bool :=
  edges.all (fun e => !(e.toTaskID == t && remaining.contains e.fromTaskID))

/-- Modelled from the spec: the rounds of `ResolveOrder`.  Each round selects, among the
waiting tasks that are ready, the one with the smallest identifier (`remaining` is kept in
ascending order) and appends it to the order; a round that finds no ready task while
tasks are waiting is a `CycleError`. -/
def resolveRounds (edges : List Edge) : Nat → List Int → List Int →
    Except ResolveError (List Int)
  | 0, _, order => .ok order
  | rounds + 1, remaining, order =>
      match remaining.find? (ready edges remaining) with
      | none => .error .CycleError
      | some t => resolveRounds edges rounds (remaining.erase t) (order ++ [t])

/-- Modelled from the spec: `ResolveOrder(taskSet)` of the task dependency graph (section
4.2), one round per task. -/
def ResolveOrder (taskSet : List Int) (edges : List Edge) : Except ResolveError (List Int) :=
  resolveRounds edges (taskIDs taskSet edges).length (taskIDs taskSet edges) []

/-- The edge relation of an edge set. -/
def Step (edges : List Edge) (a b : Int) : Prop :=
  ∃ e ∈ edges, e.fromTaskID = a ∧ e.toTaskID = b

/-- An edge set contains a cycle when some task reaches itself along one or more edges. -/
def HasCycle (edges : List Edge) : Prop := ∃ t, Relation.TransGen (Step edges) t t

/-- An edge set is acyclic when it contains no cycle. -/
def Acyclic (edges : List Edge) : Prop := ¬ HasCycle edges

/-- In `order`, task `a` comes before task `b`. -/
def Precedes (order : List Int) (a b : Int) : Prop :=
  a ∈ order ∧ b ∈ order ∧ order.indexOf a < order.indexOf b

instance (order : List Int) (a b : Int) : Decidable (Precedes order a b) := by
  unfold Precedes; infer_instance

end taskgraph

/-! ## Definitions used to state the properties, and concrete inputs -/

namespace ast

/-- The argument nodes of a list of calls, in call order. -/
def visited {α V : Type} (cs : Calls α V) : List (Node α) := cs.map Prod.snd

/-- Every `Visit` call of the visitor family returns a non-nil visitor. -/
def NeverNil {α V S : Type} (vis : Visitor α V S) : Prop :=
  ∀ v n s, (vis.Visit v n s).1 ≠ none

/-- A visitor that counts its calls and always continues with itself. -/
def countingVisitor : Visitor Nat Unit Nat := ⟨fun _ _ s => (some (), s + 1)⟩

/-- A visitor that counts its calls and always returns nil. -/
def pruningVisitor : Visitor Nat Unit Nat := ⟨fun _ _ s => (none, s + 1)⟩

/-- A `CREATE TABLE` statement tree with seven nodes. -/
def sampleTree : Node Nat :=
  .CreateTableStmt 0 (some (.TableDef 1)) [.ColumnDef 2, .ColumnDef 3]
    [.ConstraintDef 4 (some (.ForeignDef 5 (some (.TableDef 6))))]

end ast

namespace clickhouse

/-- An environment without TLS in which `sql.Open` succeeds. -/
def plainEnv : Env Unit Unit Unit := ⟨fun _ => .ok none, fun _ _ => none, fun _ _ => .ok ()⟩

/-- An environment without TLS in which `sql.Open` fails. -/
def failingOpenEnv : Env Unit Unit Unit :=
  ⟨fun _ => .ok none, fun _ _ => none,
    fun driverName _ => .error ("sql: unknown driver \"" ++ driverName ++ "\"")⟩

/-- A configuration whose password is the word `password`. -/
def weakPasswordConfig : ConnectionConfig Unit :=
  { Host := "db.internal", Port := "", Username := "default", Password := "password",
    Database := "", TlsConfig := () }

/-- A configuration whose password shares no text with the other settings. -/
def strongPasswordConfig : ConnectionConfig Unit :=
  { Host := "db.internal", Port := "9440", Username := "default", Password := "Xq7!Zk",
    Database := "analytics", TlsConfig := () }

/-- A connection context. -/
def sampleContext : ConnectionContext := ⟨"prod", "ch1"⟩

/-- A server on which the text `INSERT INTO t VALUES (1); BOGUS` inserts the row and then
fails on the second statement; every other statement is recorded and succeeds. -/
def partialFailureEngine : Engine (List String) :=
  ⟨none,
    fun statement w =>
      if statement = "INSERT INTO t VALUES (1); BOGUS" then
        (w ++ ["INSERT INTO t VALUES (1)"], some "syntax error")
      else (w ++ [statement], none),
    none⟩

/-- A server whose only principal is `default`. -/
def defaultOnlyConn : Conn := fun q =>
  if q = usersQuery then .ok [.ok "default"]
  else if q = "SHOW GRANTS FOR default" then
    .ok [.ok "GRANT SELECT ON *.* TO default", .ok "GRANT INSERT ON *.* TO default"]
  else .error "unknown query"

end clickhouse

namespace store

/-- The edges whose `ToTaskID` is `id`, in stored order. -/
def edgesTo (db : DB) (id : Int) : List taskDAGRaw :=
  db.task_dag.filter (fun r => r.ToTaskID = id)

/-- A database holding the edges `1 → 2`, `2 → 3` and `1 → 3`. -/
def sampleDB : DB :=
  ⟨[⟨1, 10, 10, 1, 2, "a"⟩, ⟨2, 11, 11, 2, 3, "b"⟩, ⟨3, 12, 12, 1, 3, "c"⟩], 4, 20, Faults.none⟩

end store

namespace store

/-- An edge from task 5 to itself. -/
def selfEdge : TaskDAGCreate := ⟨5, 5, "p"⟩

end store

namespace taskgraph

/-- The edges `1 → 2`, `2 → 3`, `1 → 3` of the specification scenario. -/
def scenarioEdges : List Edge := [⟨1, 2⟩, ⟨2, 3⟩, ⟨1, 3⟩]

/-- The scenario edges with `3 → 1` added. -/
def scenarioEdgesWithCycle : List Edge := [⟨1, 2⟩, ⟨2, 3⟩, ⟨1, 3⟩, ⟨3, 1⟩]

end taskgraph

namespace clickhouse

/-- The string literals `Open` writes into the logged DSN, side by side. -/
def fixedText : String :=
  "tcp" ++ "unix" ++ "://" ++ ":" ++ "9000" ++ "?" ++ "username=" ++ "&" ++ "database=" ++
    "tls_config=" ++ "db.clickhouse.tls" ++ "&password=<<redacted password>>"

end clickhouse

namespace ast

/-- The non-nil children of a node, in the order `Walk` reaches them: the guarded pointer
fields first where the variant has them, then the child lists in list order. -/
def children {α : Type} : Node α → List (Node α)
  | .AddColumnListStmt _ t cols => t.toList ++ cols
  | .AddConstraintStmt _ t c => t.toList ++ c.toList
  | .AlterTableStmt _ t items => t.toList ++ items
  | .ChangeColumnStmt _ t c => t.toList ++ c.toList
  | .ColumnDef _ => []
  | .ConstraintDef _ f => f.toList
  | .CreateTableStmt _ name cols cons => name.toList ++ (cols ++ cons)
  | .DropConstraintStmt _ t => t.toList
  | .ForeignDef _ t => t.toList
  | .RenameColumnStmt _ t => t.toList
  | .RenameConstraintStmt _ t => t.toList
  | .RenameTableStmt _ t => t.toList
  | .TableDef _ => []

/-- Visitor objects of the hand-over example: the visitor given to `Walk`, the visitor it
returns for the root, and the visitor every later visit returns. -/
inductive Hand where
  | outer
  | inner
  | deeper
  deriving DecidableEq, Repr

/-- A visitor family that hands over: `outer` returns `inner`, and every other visitor
returns `deeper`. -/
def handOverVisitor : Visitor Nat Hand Nat :=
  ⟨fun v _ s =>
    match v with
    | .outer => (some .inner, s + 1)
    | _ => (some .deeper, s + 1)⟩

end ast

namespace clickhouse

/-- The DSN as the specification spells it for a configuration without TLS: protocol
(`unix` exactly when the host starts with `/`), host, port (`9000` when empty), then the
`&`-joined parameters `username`, `database` (only when non-empty) and `password` (only
when non-empty). -/
def specDSN {τ : Type} (config : ConnectionConfig τ) : String :=
  (if config.Host.data.head? = some '/' then "unix" else "tcp") ++ "://" ++ config.Host ++ ":" ++
    (if config.Port = "" then "9000" else config.Port) ++ "?" ++
    "username=" ++ config.Username ++
    (if config.Database = "" then "" else "&database=" ++ config.Database) ++
    (if config.Password = "" then "" else "&password=" ++ config.Password)

/-- The DSN arguments of the `sql.Open` calls among the effects. -/
def openedDSNs : List Effect → List String
  | [] => []
  | .sqlOpen _ dsn :: rest => dsn :: openedDSNs rest
  | _ :: rest => openedDSNs rest

/-- Whether `s` ends with `suf`, as strings (Go `strings.HasSuffix`). -/
def EndsWith (s suf : String) : Prop := suf.data <:+ s.data

instance (s suf : String) : Decidable (EndsWith s suf) := by
  unfold EndsWith; infer_instance

/-- A configuration over a Unix socket with database and password set. -/
def socketConfig : ConnectionConfig Unit :=
  { Host := "/var/run/clickhouse.sock", Port := "", Username := "default",
    Password := "s3cret", Database := "analytics", TlsConfig := () }

/-- An environment in which every configuration has a TLS configuration and registering
it succeeds. -/
def tlsEnv : Env Unit Unit Unit := ⟨fun _ => .ok (some ()), fun _ _ => none, fun _ _ => .ok ()⟩

end clickhouse

/-! ## Theorems -/

namespace ast

section WalkLemmas
variable {α V S : Type}

theorem visited_skip (s : S) : visited (skip s : S × Calls α V).2 = [] := rfl

theorem visited_andThen (f g : S → S × Calls α V) (A B : List (Node α))
    (hf : ∀ s, visited (f s).2 = A) (hg : ∀ s, visited (g s).2 = B) (s : S) :
    visited (andThen f g s).2 = A ++ B := by
  simp only [andThen, visited, List.map_append]
  have h1 := hf s
  have h2 := hg (f s).1
  simp only [visited] at h1 h2
  rw [h1, h2]

theorem visited_enter (vis : Visitor α V S) (hv : NeverNil vis) (v : V) (n : Node α)
    (children : V → S → S × Calls α V) (L : List (Node α))
    (hc : ∀ w s, visited (children w s).2 = L) (s : S) :
    visited (enter vis v n children s).2 = n :: L := by
  unfold enter
  have hne := hv v n s
  rcases hvis : vis.Visit v n s with ⟨o, s1⟩
  rw [hvis] at hne
  cases o with
  | none => exact absurd rfl hne
  | some w =>
    have h := hc w s1
    simp only [visited] at h
    simp [visited, h]

theorem enter_of_nil (vis : Visitor α V S) (v : V) (n : Node α)
    (children : V → S → S × Calls α V) (s : S) (h : (vis.Visit v n s).1 = none) :
    enter vis v n children s = ((vis.Visit v n s).2, [(v, n)]) := by
  unfold enter
  rcases hvis : vis.Visit v n s with ⟨o, s1⟩
  rw [hvis] at h
  cases o with
  | none => rfl
  | some w => cases h

mutual
theorem visited_Walk (vis : Visitor α V S) (hv : NeverNil vis) :
    ∀ (n : Node α) (v : V) (s : S), visited (Walk vis v n s).2 = preorder n
  | .AddColumnListStmt _ t cols, v, s => by
      rw [Walk, preorder]
      exact visited_enter vis hv v _ _ _ (fun w => visited_andThen _ _ _ _
        (visited_WalkOpt vis hv t w) (visited_WalkList vis hv cols w)) s
  | .AddConstraintStmt _ t c, v, s => by
      rw [Walk, preorder]
      exact visited_enter vis hv v _ _ _ (fun w => visited_andThen _ _ _ _
        (visited_WalkOpt vis hv t w) (visited_WalkOpt vis hv c w)) s
  | .AlterTableStmt _ t items, v, s => by
      rw [Walk, preorder]
      exact visited_enter vis hv v _ _ _ (fun w => visited_andThen _ _ _ _
        (visited_WalkOpt vis hv t w) (visited_WalkList vis hv items w)) s
  | .ChangeColumnStmt _ t c, v, s => by
      rw [Walk, preorder]
      exact visited_enter vis hv v _ _ _ (fun w => visited_andThen _ _ _ _
        (visited_WalkOpt vis hv t w) (visited_WalkOpt vis hv c w)) s
  | .ColumnDef _, v, s => by
      rw [Walk, preorder]
      exact visited_enter vis hv v _ _ _ (fun _ => visited_skip) s
  | .ConstraintDef _ f, v, s => by
      rw [Walk, preorder]
      exact visited_enter vis hv v _ _ _ (fun w => visited_WalkOpt vis hv f w) s
  | .CreateTableStmt _ name cols cons, v, s => by
      rw [Walk, preorder]
      exact visited_enter vis hv v _ _ _ (fun w => visited_andThen _ _ _ _
        (visited_WalkOpt vis hv name w) (visited_andThen _ _ _ _
          (visited_WalkList vis hv cols w) (visited_WalkList vis hv cons w))) s
  | .DropConstraintStmt _ t, v, s => by
      rw [Walk, preorder]
      exact visited_enter vis hv v _ _ _ (fun w => visited_WalkOpt vis hv t w) s
  | .ForeignDef _ t, v, s => by
      rw [Walk, preorder]
      exact visited_enter vis hv v _ _ _ (fun w => visited_WalkOpt vis hv t w) s
  | .RenameColumnStmt _ t, v, s => by
      rw [Walk, preorder]
      exact visited_enter vis hv v _ _ _ (fun w => visited_WalkOpt vis hv t w) s
  | .RenameConstraintStmt _ t, v, s => by
      rw [Walk, preorder]
      exact visited_enter vis hv v _ _ _ (fun w => visited_WalkOpt vis hv t w) s
  | .RenameTableStmt _ t, v, s => by
      rw [Walk, preorder]
      exact visited_enter vis hv v _ _ _ (fun w => visited_WalkOpt vis hv t w) s
  | .TableDef _, v, s => by
      rw [Walk, preorder]
      exact visited_enter vis hv v _ _ _ (fun _ => visited_skip) s
theorem visited_WalkOpt (vis : Visitor α V S) (hv : NeverNil vis) :
    ∀ (o : Option (Node α)) (v : V) (s : S), visited (WalkOpt vis v o s).2 = preorderOpt o
  | none, _, _ => by rw [WalkOpt, preorderOpt]; rfl
  | some n, v, s => by rw [WalkOpt, preorderOpt]; exact visited_Walk vis hv n v s
theorem visited_WalkList (vis : Visitor α V S) (hv : NeverNil vis) :
    ∀ (l : List (Node α)) (v : V) (s : S), visited (WalkList vis v l s).2 = preorderList l
  | [], _, _ => by rw [WalkList, preorderList]; rfl
  | n :: ns, v, s => by
      rw [WalkList, preorderList]
      exact visited_andThen _ _ _ _ (visited_Walk vis hv n v) (visited_WalkList vis hv ns v) s
end

mutual
theorem length_preorder : ∀ n : Node α, (preorder n).length = size n
  | .AddColumnListStmt _ t cols => by
      simp [preorder, size, length_preorderOpt t, length_preorderList cols]; omega
  | .AddConstraintStmt _ t c => by
      simp [preorder, size, length_preorderOpt t, length_preorderOpt c]; omega
  | .AlterTableStmt _ t items => by
      simp [preorder, size, length_preorderOpt t, length_preorderList items]; omega
  | .ChangeColumnStmt _ t c => by
      simp [preorder, size, length_preorderOpt t, length_preorderOpt c]; omega
  | .ColumnDef _ => by simp [preorder, size]
  | .ConstraintDef _ f => by simp [preorder, size, length_preorderOpt f]; omega
  | .CreateTableStmt _ name cols cons => by
      simp [preorder, size, length_preorderOpt name, length_preorderList cols,
        length_preorderList cons]; omega
  | .DropConstraintStmt _ t => by simp [preorder, size, length_preorderOpt t]; omega
  | .ForeignDef _ t => by simp [preorder, size, length_preorderOpt t]; omega
  | .RenameColumnStmt _ t => by simp [preorder, size, length_preorderOpt t]; omega
  | .RenameConstraintStmt _ t => by simp [preorder, size, length_preorderOpt t]; omega
  | .RenameTableStmt _ t => by simp [preorder, size, length_preorderOpt t]; omega
  | .TableDef _ => by simp [preorder, size]
theorem length_preorderOpt : ∀ o : Option (Node α), (preorderOpt o).length = sizeOpt o
  | none => by simp [preorderOpt, sizeOpt]
  | some n => by simp [preorderOpt, sizeOpt, length_preorder n]
theorem length_preorderList : ∀ l : List (Node α), (preorderList l).length = sizeList l
  | [] => by simp [preorderList, sizeList]
  | n :: ns => by simp [preorderList, sizeList, length_preorder n, length_preorderList ns]
end

end WalkLemmas

/-- C1: for a visitor family whose `Visit` never returns nil, the nodes `Walk` passes to
`Visit` are, in call order, exactly the pre-order listing of the tree with children in
declared order; the number of calls is the number of nodes, so each node reachable through
non-nil child references is visited exactly once. -/
theorem Walk_visits_preorder {α V S : Type} (vis : Visitor α V S) (hv : NeverNil vis)
    (v : V) (n : Node α) (s : S) :
    visited (Walk vis v n s).2 = preorder n ∧ (Walk vis v n s).2.length = size n := by
  have h := visited_Walk vis hv n v s
  refine ⟨h, ?_⟩
  have hl := congrArg List.length h
  simp only [visited, List.length_map] at hl
  rw [hl, length_preorder]

/-- Witness for C1: the counting visitor on the seven-node sample tree. -/
theorem Walk_visits_preorder_witness :
    NeverNil countingVisitor ∧
      (visited (Walk countingVisitor () sampleTree 0).2 = preorder sampleTree ∧
        (Walk countingVisitor () sampleTree 0).2.length = size sampleTree) :=
  ⟨fun _ _ _ => Option.some_ne_none _,
    Walk_visits_preorder countingVisitor (fun _ _ _ => Option.some_ne_none _) () sampleTree 0⟩

/-- C2: when `v.Visit(n)` returns nil, `Walk(v, n)` makes that one `Visit` call and no
other, whatever the variant of `n` and its children; the state is the one that call left. -/
theorem Walk_nil_skips_subtree {α V S : Type} (vis : Visitor α V S) (v : V) (n : Node α)
    (s : S) (h : (vis.Visit v n s).1 = none) :
    Walk vis v n s = ((vis.Visit v n s).2, [(v, n)]) := by
  cases n <;> (rw [Walk]; exact enter_of_nil vis v _ _ s h)

/-- Witness for C2: the pruning visitor on the sample tree makes a single call. -/
theorem Walk_nil_skips_subtree_witness :
    (pruningVisitor.Visit () sampleTree 0).1 = none ∧
      Walk pruningVisitor () sampleTree 0 =
        ((pruningVisitor.Visit () sampleTree 0).2, [((), sampleTree)]) :=
  ⟨rfl, Walk_nil_skips_subtree pruningVisitor () sampleTree 0 rfl⟩

end ast

namespace clickhouse

/-- C3: on a statement that fails after a partial effect, `Execute` still calls `Commit`
(the deferred `Rollback` then finds the transaction finished), returns the statement
error, and the partial effect is visible in the database afterwards. -/
theorem Execute_commits_failed_statement :
    (Execute partialFailureEngine [] "INSERT INTO t VALUES (1); BOGUS").err
        = some "syntax error" ∧
      (Execute partialFailureEngine [] "INSERT INTO t VALUES (1); BOGUS").db
        = ["INSERT INTO t VALUES (1)"] ∧
      (Execute partialFailureEngine [] "INSERT INTO t VALUES (1); BOGUS").calls
        = [.BeginTx none, .ExecContext "INSERT INTO t VALUES (1); BOGUS" (some "syntax error"),
            .Commit none, .Rollback (some ErrTxDone)] := by
  refine ⟨rfl, rfl, rfl⟩

theorem loggedDSNs_append (a b : List Effect) :
    loggedDSNs (a ++ b) = loggedDSNs a ++ loggedDSNs b := by
  induction a with
  | nil => rfl
  | cons e es ih => cases e <;> simp [loggedDSNs, ih]

theorem loggedDSNs_connect {τ κ δ : Type} (env : Env τ κ δ) (driver : Driver δ)
    (dbType : String) (config : ConnectionConfig τ) (connCtx : ConnectionContext)
    (tls : Bool) :
    loggedDSNs (connect env driver dbType config connCtx tls).effects
      = [loggedDSN config tls] := by
  unfold connect
  cases env.sqlOpen "clickhouse" (dsn config tls) <;> simp [loggedDSNs]

/-- The logged DSN values of a call of `Open`: none when `Open` fails before logging,
otherwise the one `loggedDSN` value. -/
theorem loggedDSNs_Open {τ κ δ : Type} (env : Env τ κ δ) (driver : Driver δ)
    (dbType : String) (config : ConnectionConfig τ) (connCtx : ConnectionContext) :
    loggedDSNs (Open env driver dbType config connCtx).effects = [] ∨
      ∃ tls, loggedDSNs (Open env driver dbType config connCtx).effects
        = [loggedDSN config tls] := by
  unfold Open
  rcases h : env.GetSslConfig config.TlsConfig with err | o
  · left; simp [loggedDSNs]
  · cases o with
    | none => right; exact ⟨false, loggedDSNs_connect ..⟩
    | some tc =>
      simp only
      cases h2 : env.RegisterTLSConfig "db.clickhouse.tls" tc with
      | some err => left; simp [loggedDSNs]
      | none =>
        right
        refine ⟨true, ?_⟩
        simp only [loggedDSNs_append, loggedDSNs_connect]
        simp [loggedDSNs]

theorem loggedDSN_blank_password {τ : Type} (config : ConnectionConfig τ) (tls : Bool) :
    loggedDSN { config with Password := "" } tls = loggedDSN config tls := rfl

theorem loggedDSNs_Open_blank_password {τ κ δ : Type} (env : Env τ κ δ) (driver : Driver δ)
    (dbType : String) (config : ConnectionConfig τ) (connCtx : ConnectionContext) :
    loggedDSNs (Open env driver dbType { config with Password := "" } connCtx).effects
      = loggedDSNs (Open env driver dbType config connCtx).effects := by
  unfold Open
  simp only
  rcases h : env.GetSslConfig config.TlsConfig with err | o
  · simp [loggedDSNs]
  · cases o with
    | none => simp only [loggedDSNs_connect]; rfl
    | some tc =>
      simp only
      cases h2 : env.RegisterTLSConfig "db.clickhouse.tls" tc with
      | some err => simp [loggedDSNs]
      | none =>
        simp only [loggedDSNs_append, loggedDSNs_connect]
        rfl

theorem mem_Join_data (c : Char) (sep : String) :
    ∀ l : List String, c ∈ (Join l sep).data → c ∈ sep.data ∨ ∃ s ∈ l, c ∈ s.data
  | [] => by simp [Join]
  | [a] => by
      intro h
      right
      exact ⟨a, by simp, by simpa [Join] using h⟩
  | a :: b :: rest => by
      intro h
      rw [Join] at h
      simp only [String.data_append, List.mem_append] at h
      rcases h with (h | h) | h
      · right; exact ⟨a, by simp, h⟩
      · left; exact h
      · rcases mem_Join_data c sep (b :: rest) h with h | ⟨s, hs, hc⟩
        · left; exact h
        · right; exact ⟨s, List.mem_cons_of_mem _ hs, hc⟩

end clickhouse

namespace clickhouse

theorem mem_fixedText (c : Char) :
    c ∈ fixedText.data ↔
      c ∈ "tcp".data ∨ c ∈ "unix".data ∨ c ∈ "://".data ∨ c ∈ ":".data ∨ c ∈ "9000".data ∨
        c ∈ "?".data ∨ c ∈ "username=".data ∨ c ∈ "&".data ∨ c ∈ "database=".data ∨
        c ∈ "tls_config=".data ∨ c ∈ "db.clickhouse.tls".data ∨
        c ∈ "&password=<<redacted password>>".data := by
  unfold fixedText
  simp only [String.data_append, List.mem_append]
  tauto

theorem mem_paramsAtLog {τ : Type} (config : ConnectionConfig τ) (tls : Bool) (c : Char)
    (s : String) (hs : s ∈ paramsAtLog config tls) (hc : c ∈ s.data) :
    c ∈ config.Username.data ∨ c ∈ config.Database.data ∨ c ∈ fixedText.data := by
  rw [mem_fixedText]
  unfold paramsAtLog at hs
  simp only [List.nil_append] at hs
  have key : s = "username=" ++ config.Username ∨ s = "database=" ++ config.Database ∨
      s = "tls_config=" ++ "db.clickhouse.tls" := by
    split at hs <;> split at hs <;> simp at hs <;> tauto
  rcases key with h | h | h <;> subst h <;>
    simp only [String.data_append, List.mem_append] at hc <;>
    rcases hc with hc | hc <;> simp only [hc, true_or, or_true]

theorem mem_loggedDSN {τ : Type} (config : ConnectionConfig τ) (tls : Bool) (c : Char)
    (hc : c ∈ (loggedDSN config tls).data) :
    c ∈ (config.Host ++ config.Port ++ config.Username ++ config.Database ++ fixedText).data := by
  simp only [String.data_append, List.mem_append]
  unfold loggedDSN baseDSN at hc
  simp only [String.data_append, List.mem_append] at hc
  have hfix := mem_fixedText c
  rcases hc with ((((((h | h) | h) | h) | h) | h) | h) | h
  · unfold protocol at h
    split at h <;> simp only [hfix, h, true_or, or_true]
  · simp only [hfix, h, true_or, or_true]
  · simp only [h, true_or, or_true]
  · simp only [hfix, h, true_or, or_true]
  · unfold port at h
    split at h <;> simp only [hfix, h, true_or, or_true]
  · simp only [hfix, h, true_or, or_true]
  · rcases mem_Join_data c "&" _ h with h | ⟨s, hs, hcs⟩
    · simp only [hfix, h, true_or, or_true]
    · rcases mem_paramsAtLog config tls c s hs hcs with h | h | h <;>
        simp only [h, true_or, or_true]
  · simp only [hfix, h, true_or, or_true]

/-- C4 (counterexample): with the password `password`, the DSN written to the log contains
the literal password value. -/
theorem loggedDSN_contains_weak_password :
    weakPasswordConfig.Password ≠ "" ∧
      ∃ d ∈ loggedDSNs
          (Open plainEnv newDriver "CLICKHOUSE" weakPasswordConfig sampleContext).effects,
        Contains d weakPasswordConfig.Password := by
  decide

/-- C4 (amended): for a configuration with a non-empty password, the DSN `Open` logs is the
one it logs for the same configuration with the password left empty, so the password value
occurs in it only where the other settings or the fixed text spell it; it does not occur
when some character of the password is in none of host, port, username, database and the
fixed text. -/
theorem loggedDSN_omits_password {τ κ δ : Type} (env : Env τ κ δ) (driver : Driver δ)
    (dbType : String) (config : ConnectionConfig τ) (connCtx : ConnectionContext)
    (_hpw : config.Password ≠ "") :
    loggedDSNs (Open env driver dbType config connCtx).effects
        = loggedDSNs (Open env driver dbType { config with Password := "" } connCtx).effects ∧
      ((∃ c ∈ config.Password.data,
          c ∉ (config.Host ++ config.Port ++ config.Username ++ config.Database
            ++ fixedText).data) →
        ∀ d ∈ loggedDSNs (Open env driver dbType config connCtx).effects,
          ¬ Contains d config.Password) := by
  refine ⟨(loggedDSNs_Open_blank_password env driver dbType config connCtx).symm, ?_⟩
  rintro ⟨c, hc, hnot⟩ d hd hcont
  apply hnot
  have hcd : c ∈ d.data := hcont.subset hc
  rcases loggedDSNs_Open env driver dbType config connCtx with h | ⟨tls, h⟩
  · rw [h] at hd; cases hd
  · rw [h] at hd
    simp only [List.mem_singleton] at hd
    subst hd
    exact mem_loggedDSN config tls c hcd

/-- Witness for C4 (amended): a password with the character `!`. -/
theorem loggedDSN_omits_password_witness :
    strongPasswordConfig.Password ≠ "" ∧
      (loggedDSNs (Open plainEnv newDriver "CLICKHOUSE" strongPasswordConfig sampleContext).effects
          = loggedDSNs (Open plainEnv newDriver "CLICKHOUSE"
              { strongPasswordConfig with Password := "" } sampleContext).effects ∧
        ((∃ c ∈ strongPasswordConfig.Password.data,
            c ∉ (strongPasswordConfig.Host ++ strongPasswordConfig.Port
              ++ strongPasswordConfig.Username ++ strongPasswordConfig.Database
              ++ fixedText).data) →
          ∀ d ∈ loggedDSNs
              (Open plainEnv newDriver "CLICKHOUSE" strongPasswordConfig sampleContext).effects,
            ¬ Contains d strongPasswordConfig.Password)) :=
  ⟨by decide,
    loggedDSN_omits_password plainEnv newDriver "CLICKHOUSE" strongPasswordConfig sampleContext
      (by decide)⟩

/-- C7: whatever the configuration, when `sql.Open` fails, `Open` panics with that error
and does not return an error to its caller. -/
theorem Open_panics_when_sqlOpen_fails (driver : Driver Unit) (dbType : String)
    (config : ConnectionConfig Unit) (connCtx : ConnectionContext) :
    (Open failingOpenEnv driver dbType config connCtx).outcome
        = .panicked "sql: unknown driver \"clickhouse\"" ∧
      (Open failingOpenEnv driver dbType config connCtx).panics = true ∧
      (Open failingOpenEnv driver dbType config connCtx).returnsError = false := by
  refine ⟨rfl, rfl, rfl⟩

end clickhouse

namespace clickhouse

theorem scanGrants_ok (gs : List String) :
    ∀ acc : List String, scanGrants (gs.map Except.ok) acc = .ok (acc ++ gs) := by
  induction gs with
  | nil => intro acc; simp [scanGrants]
  | cons g gs ih => intro acc; simp [scanGrants, ih]

theorem scanUsers_ok (conn : Conn) (grants : String → List String) (names : List String)
    (hg : ∀ u ∈ names, conn ("SHOW GRANTS FOR " ++ u) = .ok ((grants u).map Except.ok)) :
    ∀ acc : List DBUser, scanUsers conn (names.map Except.ok) acc
      = .ok (acc ++ names.map (fun u => { Name := u, Grant := Join (grants u) "\n" })) := by
  induction names with
  | nil => intro acc; simp [scanUsers]
  | cons u us ih =>
    intro acc
    have hu := hg u (List.mem_cons_self _ _)
    have ih2 := ih (fun w hw => hg w (List.mem_cons_of_mem _ hw))
    simp only [List.map_cons, scanUsers, hu, scanGrants_ok, List.nil_append, ih2]
    simp

/-- C9: when the `system.users` query and every `SHOW GRANTS` query succeed and every row
scans, `SyncSchema` returns one user entry per returned principal, in row order, with the
principal name and its grant lines joined by newline, and an empty schema list. -/
theorem SyncSchema_lists_principals (conn : Conn) (names : List String)
    (grants : String → List String)
    (hu : conn usersQuery = .ok (names.map Except.ok))
    (hg : ∀ u ∈ names, conn ("SHOW GRANTS FOR " ++ u) = .ok ((grants u).map Except.ok)) :
    SyncSchema conn
      = .ok (names.map (fun u => { Name := u, Grant := Join (grants u) "\n" }), []) := by
  unfold SyncSchema getUserList
  simp only [hu, scanUsers_ok conn grants names hg, List.nil_append]

/-- Witness for C9: a server whose only principal is `default` yields exactly one user
entry and no schema entry. -/
theorem SyncSchema_lists_principals_witness :
    defaultOnlyConn usersQuery = .ok (["default"].map Except.ok) ∧
      (∀ u ∈ ["default"], defaultOnlyConn ("SHOW GRANTS FOR " ++ u)
        = .ok ((["GRANT SELECT ON *.* TO default", "GRANT INSERT ON *.* TO default"]).map
            Except.ok)) ∧
      SyncSchema defaultOnlyConn
        = .ok ([{ Name := "default",
                  Grant := "GRANT SELECT ON *.* TO default\nGRANT INSERT ON *.* TO default" }],
            []) :=
  ⟨rfl, by intro u hu; rw [List.mem_singleton] at hu; subst hu; rfl,
    SyncSchema_lists_principals defaultOnlyConn ["default"]
      (fun _ => ["GRANT SELECT ON *.* TO default", "GRANT INSERT ON *.* TO default"]) rfl
      (by intro u hu; rw [List.mem_singleton] at hu; subst hu; rfl)⟩

end clickhouse

namespace store

theorem deliver_none (rows : List taskDAGRaw) :
    deliver Faults.none rows = ⟨rows.map Except.ok, Option.none⟩ := rfl

theorem scanRows_ok (rows : List taskDAGRaw) :
    ∀ acc : List taskDAGRaw, scanRows (rows.map Except.ok) acc = .ok (acc ++ rows) := by
  induction rows with
  | nil => intro acc; simp [scanRows]
  | cons r rs ih => intro acc; simp [scanRows, ih]

theorem selectByToTaskID_none (table : List taskDAGRaw) (id : Int) :
    selectByToTaskID Faults.none table id
      = .ok ⟨(table.filter (fun r => r.ToTaskID = id)).map Except.ok, Option.none⟩ := rfl

theorem findTaskDAGRawListImpl_none (table : List taskDAGRaw) (find : TaskDAGFind) :
    findTaskDAGRawListImpl Faults.none table find
      = .ok (table.filter (fun r => r.ToTaskID = find.ToTaskID)) := by
  unfold findTaskDAGRawListImpl
  rw [selectByToTaskID_none]
  simp only [scanRows_ok, List.nil_append]

theorem FindTaskDAGList_ok (db : DB) (find : TaskDAGFind) (h : db.faults = Faults.none) :
    FindTaskDAGList db find
      = .ok ((db.task_dag.filter (fun r => r.ToTaskID = find.ToTaskID)).map
          taskDAGRaw.toTaskDAG) := by
  unfold FindTaskDAGList findTaskDAGRawList
  rw [h, findTaskDAGRawListImpl_none]
  rfl

theorem GetTaskDAGByToTaskID_single (db : DB) (id : Int) (t : TaskDAG)
    (hf : FindTaskDAGList db ⟨id⟩ = .ok [t]) : GetTaskDAGByToTaskID db id = .ok t := by
  unfold GetTaskDAGByToTaskID
  rw [hf]
  simp

theorem GetTaskDAGByToTaskID_conflict (db : DB) (id : Int) (l : List TaskDAG)
    (hf : FindTaskDAGList db ⟨id⟩ = .ok l) (hl : l.length ≠ 1) :
    GetTaskDAGByToTaskID db id
      = .error (.coded .Conflict ("found " ++ fmtInt l.length ++
          " tasks with ToTaskID " ++ fmtInt id ++ ", expect 1")) := by
  unfold GetTaskDAGByToTaskID
  rw [hf]
  simp only [dif_pos hl]

/-- C6: on a database that answers every call, `FindTaskDAGList` returns the stored edges
whose `ToTaskID` equals `find.ToTaskID`, one result per row and in row order, and
`toTaskDAG` copies the six fields unchanged. -/
theorem FindTaskDAGList_returns_matching_edges (db : DB) (find : TaskDAGFind)
    (h : db.faults = Faults.none) :
    FindTaskDAGList db find
        = .ok ((db.task_dag.filter (fun r => r.ToTaskID = find.ToTaskID)).map
            taskDAGRaw.toTaskDAG) ∧
      ∀ raw : taskDAGRaw,
        raw.toTaskDAG.ID = raw.ID ∧ raw.toTaskDAG.CreatedTs = raw.CreatedTs ∧
          raw.toTaskDAG.UpdatedTs = raw.UpdatedTs ∧ raw.toTaskDAG.FromTaskID = raw.FromTaskID ∧
          raw.toTaskDAG.ToTaskID = raw.ToTaskID ∧ raw.toTaskDAG.Payload = raw.Payload :=
  ⟨FindTaskDAGList_ok db find h, fun _ => ⟨rfl, rfl, rfl, rfl, rfl, rfl⟩⟩

/-- Witness for C6: the two edges into task 3 of the sample database. -/
theorem FindTaskDAGList_returns_matching_edges_witness :
    sampleDB.faults = Faults.none ∧
      (FindTaskDAGList sampleDB ⟨3⟩ = .ok [⟨2, 11, 11, 2, 3, "b"⟩, ⟨3, 12, 12, 1, 3, "c"⟩] ∧
        ∀ raw : taskDAGRaw,
          raw.toTaskDAG.ID = raw.ID ∧ raw.toTaskDAG.CreatedTs = raw.CreatedTs ∧
            raw.toTaskDAG.UpdatedTs = raw.UpdatedTs ∧
            raw.toTaskDAG.FromTaskID = raw.FromTaskID ∧
            raw.toTaskDAG.ToTaskID = raw.ToTaskID ∧ raw.toTaskDAG.Payload = raw.Payload) :=
  ⟨rfl, FindTaskDAGList_returns_matching_edges sampleDB ⟨3⟩ rfl⟩

/-- C5: on a database that answers every call, `GetTaskDAGByToTaskID` returns an edge
exactly when one stored edge has the given `ToTaskID`, and then it is that edge; with zero
or several such edges it returns an error with code `Conflict`. -/
theorem GetTaskDAGByToTaskID_unique_or_conflict (db : DB) (id : Int)
    (h : db.faults = Faults.none) :
    (∀ t, GetTaskDAGByToTaskID db id = .ok t ↔
        ∃ r, edgesTo db id = [r] ∧ t = r.toTaskDAG) ∧
      ((edgesTo db id).length ≠ 1 →
        GetTaskDAGByToTaskID db id
          = .error (.coded .Conflict ("found " ++ fmtInt (edgesTo db id).length ++
              " tasks with ToTaskID " ++ fmtInt id ++ ", expect 1"))) := by
  have hf : FindTaskDAGList db ⟨id⟩ = .ok ((edgesTo db id).map taskDAGRaw.toTaskDAG) :=
    FindTaskDAGList_ok db ⟨id⟩ h
  have hconf : (edgesTo db id).length ≠ 1 →
      GetTaskDAGByToTaskID db id
        = .error (.coded .Conflict ("found " ++ fmtInt (edgesTo db id).length ++
            " tasks with ToTaskID " ++ fmtInt id ++ ", expect 1")) := by
    intro hne
    have := GetTaskDAGByToTaskID_conflict db id _ hf (by rw [List.length_map]; exact hne)
    rw [List.length_map] at this
    exact this
  refine ⟨fun t => ⟨fun hok => ?_, ?_⟩, hconf⟩
  · by_cases hlen : (edgesTo db id).length = 1
    · obtain ⟨r, hr⟩ := List.length_eq_one.mp hlen
      rw [hr] at hf
      have := GetTaskDAGByToTaskID_single db id _ hf
      rw [this] at hok
      exact ⟨r, hr, (Except.ok.inj hok).symm⟩
    · rw [hconf hlen] at hok
      cases hok
  · rintro ⟨r, hr, rfl⟩
    rw [hr] at hf
    exact GetTaskDAGByToTaskID_single db id _ hf

/-- Witness for C5: in the sample database one edge leads to task 2. -/
theorem GetTaskDAGByToTaskID_unique_or_conflict_witness :
    sampleDB.faults = Faults.none ∧
      ((∀ t, GetTaskDAGByToTaskID sampleDB 2 = .ok t ↔
          ∃ r, edgesTo sampleDB 2 = [r] ∧ t = r.toTaskDAG) ∧
        ((edgesTo sampleDB 2).length ≠ 1 →
          GetTaskDAGByToTaskID sampleDB 2
            = .error (.coded .Conflict ("found " ++ fmtInt (edgesTo sampleDB 2).length ++
                " tasks with ToTaskID " ++ fmtInt 2 ++ ", expect 1")))) :=
  ⟨rfl, GetTaskDAGByToTaskID_unique_or_conflict sampleDB 2 rfl⟩

/-- C8 (counterexample): `CreateTaskDAG` with `FromTaskID = ToTaskID = 5` returns the new
edge without error and the stored edge set has grown by that edge. -/
theorem CreateTaskDAG_stores_self_edge :
    (CreateTaskDAG sampleDB selfEdge).1 = .ok ⟨4, 20, 20, 5, 5, "p"⟩ ∧
      (CreateTaskDAG sampleDB selfEdge).2.task_dag
        = sampleDB.task_dag ++ [⟨4, 20, 20, 5, 5, "p"⟩] ∧
      (CreateTaskDAG sampleDB selfEdge).2.task_dag ≠ sampleDB.task_dag := by
  refine ⟨rfl, rfl, by decide⟩

/-- C8 (amended): `CreateTaskDAG` makes no self-edge check.  On a database that answers
every call, an edge from `t` to `t` is stored and returned without error; whenever
`CreateTaskDAG` returns an error, the database is unchanged. -/
theorem CreateTaskDAG_self_edge (db : DB) (t : Int) (payload : String)
    (h : db.faults = Faults.none) :
    CreateTaskDAG db ⟨t, t, payload⟩
        = (.ok ⟨db.nextID, db.now, db.now, t, t, payload⟩,
            { db with task_dag := db.task_dag ++ [⟨db.nextID, db.now, db.now, t, t, payload⟩],
                      nextID := db.nextID + 1 }) ∧
      ∀ (db1 : DB) (create : TaskDAGCreate) (err : Error),
        (CreateTaskDAG db1 create).1 = .error err → (CreateTaskDAG db1 create).2 = db1 := by
  constructor
  · unfold CreateTaskDAG createTaskDAGRaw createTaskDAGImpl
    rw [h]
    rfl
  · intro db1 create err
    unfold CreateTaskDAG createTaskDAGRaw
    cases db1.faults.beginTx with
    | some e => simp
    | none =>
      simp only
      cases createTaskDAGImpl db1 create with
      | error e => simp
      | ok row =>
        simp only
        cases db1.faults.commit with
        | some e => simp
        | none => simp

/-- Witness for C8 (amended): the sample database answers every call. -/
theorem CreateTaskDAG_self_edge_witness :
    sampleDB.faults = Faults.none ∧
      (CreateTaskDAG sampleDB ⟨5, 5, "p"⟩
          = (.ok ⟨sampleDB.nextID, sampleDB.now, sampleDB.now, 5, 5, "p"⟩,
              { sampleDB with
                  task_dag := sampleDB.task_dag ++
                    [⟨sampleDB.nextID, sampleDB.now, sampleDB.now, 5, 5, "p"⟩],
                  nextID := sampleDB.nextID + 1 }) ∧
        ∀ (db1 : DB) (create : TaskDAGCreate) (err : Error),
          (CreateTaskDAG db1 create).1 = .error err → (CreateTaskDAG db1 create).2 = db1) :=
  ⟨rfl, CreateTaskDAG_self_edge sampleDB 5 "p" rfl⟩

end store

namespace taskgraph

theorem mem_taskIDs (taskSet : List Int) (edges : List Edge) (t : Int) :
    t ∈ taskIDs taskSet edges ↔
      t ∈ taskSet ∨ ∃ e ∈ edges, e.fromTaskID = t ∨ e.toTaskID = t := by
  unfold taskIDs
  rw [(List.perm_insertionSort _ _).mem_iff, List.mem_dedup]
  simp only [List.mem_append, List.mem_map]
  constructor
  · rintro ((h | ⟨e, he, rfl⟩) | ⟨e, he, rfl⟩)
    · exact Or.inl h
    · exact Or.inr ⟨e, he, Or.inl rfl⟩
    · exact Or.inr ⟨e, he, Or.inr rfl⟩
  · rintro (h | ⟨e, he, rfl | rfl⟩)
    · exact Or.inl (Or.inl h)
    · exact Or.inl (Or.inr ⟨e, he, rfl⟩)
    · exact Or.inr ⟨e, he, rfl⟩

theorem nodup_taskIDs (taskSet : List Int) (edges : List Edge) :
    (taskIDs taskSet edges).Nodup := by
  unfold taskIDs
  rw [(List.perm_insertionSort _ _).nodup_iff]
  exact List.nodup_dedup _

theorem ready_iff (edges : List Edge) (remaining : List Int) (t : Int) :
    ready edges remaining t = true ↔
      ∀ e ∈ edges, e.toTaskID = t → e.fromTaskID ∉ remaining := by
  have h1 : ready edges remaining t = true ↔
      ∀ x ∈ edges, ¬x.toTaskID = t ∨ x.fromTaskID ∉ remaining := by
    simp [ready]
  rw [h1]
  constructor
  · intro h e he hto
    rcases h e he with h2 | h2
    · exact absurd hto h2
    · exact h2
  · intro h e he
    by_cases hto : e.toTaskID = t
    · exact Or.inr (h e he hto)
    · exact Or.inl hto

/-- Along a chain of edges the position in a resolved order strictly increases. -/
theorem indexOf_lt_of_transGen (edges : List Edge) (order : List Int)
    (h : ∀ e ∈ edges, Precedes order e.fromTaskID e.toTaskID) (a b : Int)
    (hab : Relation.TransGen (Step edges) a b) : order.indexOf a < order.indexOf b := by
  induction hab with
  | single hs =>
    obtain ⟨e, he, rfl, rfl⟩ := hs
    exact (h e he).2.2
  | tail _ hs ih =>
    obtain ⟨e, he, rfl, rfl⟩ := hs
    exact lt_trans ih (h e he).2.2

/-- An order in which every edge goes forward exists only for an acyclic edge set. -/
theorem acyclic_of_order (edges : List Edge) (order : List Int)
    (h : ∀ e ∈ edges, Precedes order e.fromTaskID e.toTaskID) : Acyclic edges := by
  rintro ⟨t, ht⟩
  exact lt_irrefl _ (indexOf_lt_of_transGen edges order h t t ht)

/-- In a non-empty list of waiting tasks of an acyclic edge set some task is ready. -/
theorem exists_ready (edges : List Edge) (hac : Acyclic edges) (remaining : List Int)
    (hne : remaining ≠ []) : ∃ t ∈ remaining, ready edges remaining t = true := by
  let r : {x // x ∈ remaining} → {x // x ∈ remaining} → Prop :=
    fun a b => Relation.TransGen (Step edges) a.1 b.1
  haveI : IsTrans {x // x ∈ remaining} r := ⟨fun _ _ _ h1 h2 => Relation.TransGen.trans h1 h2⟩
  haveI : IsIrrefl {x // x ∈ remaining} r := ⟨fun a h => hac ⟨a.1, h⟩⟩
  have hwf : WellFounded r := Finite.wellFounded_of_trans_of_irrefl r
  obtain ⟨x, hx⟩ := List.exists_mem_of_ne_nil remaining hne
  obtain ⟨a, -, hmin⟩ := hwf.has_min Set.univ ⟨⟨x, hx⟩, trivial⟩
  refine ⟨a.1, a.2, (ready_iff edges remaining a.1).mpr ?_⟩
  intro e he hto hfrom
  exact hmin ⟨e.fromTaskID, hfrom⟩ trivial (Relation.TransGen.single ⟨e, he, rfl, hto⟩)

/-- What the rounds preserve and deliver: started with as many rounds as waiting tasks,
a successful run returns the tasks already ordered followed by the waiting ones in some
order, with every edge going forward. -/
theorem resolveRounds_sound (edges : List Edge) :
    ∀ (rounds : Nat) (remaining order result : List Int),
      rounds = remaining.length →
      (order ++ remaining).Nodup →
      (∀ e ∈ edges, e.fromTaskID ∈ order ++ remaining ∧ e.toTaskID ∈ order ++ remaining) →
      (∀ e ∈ edges, e.toTaskID ∈ order → Precedes order e.fromTaskID e.toTaskID) →
      resolveRounds edges rounds remaining order = .ok result →
      result.Perm (order ++ remaining) ∧
        ∀ e ∈ edges, Precedes result e.fromTaskID e.toTaskID := by
  intro rounds
  induction rounds with
  | zero =>
    intro remaining order result hlen _ hmem hprec hres
    have hnil : remaining = [] := List.length_eq_zero.mp hlen.symm
    subst hnil
    simp only [resolveRounds, Except.ok.injEq] at hres
    subst hres
    simp only [List.append_nil] at hmem ⊢
    exact ⟨List.Perm.refl _, fun e he => hprec e he (hmem e he).2⟩
  | succ n ih =>
    intro remaining order result hlen hnd hmem hprec hres
    rw [resolveRounds] at hres
    cases hfind : remaining.find? (ready edges remaining) with
    | none => rw [hfind] at hres; cases hres
    | some t =>
      rw [hfind] at hres
      simp only at hres
      have htmem : t ∈ remaining := List.mem_of_find?_eq_some hfind
      have htready := (ready_iff edges remaining t).mp (List.find?_some hfind)
      have hperm : (order ++ [t] ++ remaining.erase t).Perm (order ++ remaining) := by
        rw [List.append_assoc]
        exact List.Perm.append_left _ (List.perm_cons_erase htmem).symm
      have htnot : t ∉ order := by
        intro hto
        exact (List.nodup_append.mp hnd).2.2 hto htmem
      have hstep := ih (remaining.erase t) (order ++ [t]) result
        (by rw [List.length_erase_of_mem htmem, ← hlen]; rfl)
        (hperm.nodup_iff.mpr hnd)
        (fun e he => ⟨hperm.mem_iff.mpr (hmem e he).1, hperm.mem_iff.mpr (hmem e he).2⟩)
        (by
          intro e he hto
          rcases List.mem_append.mp hto with hto | hto
          · obtain ⟨h1, h2, h3⟩ := hprec e he hto
            refine ⟨List.mem_append_left _ h1, List.mem_append_left _ h2, ?_⟩
            rw [List.indexOf_append_of_mem h1, List.indexOf_append_of_mem h2]
            exact h3
          · have hto2 : e.toTaskID = t := List.mem_singleton.mp hto
            have hfrom : e.fromTaskID ∈ order := by
              rcases List.mem_append.mp (hmem e he).1 with h | h
              · exact h
              · exact absurd h (htready e he hto2)
            refine ⟨List.mem_append_left _ hfrom, List.mem_append_right _ hto, ?_⟩
            rw [List.indexOf_append_of_mem hfrom, hto2,
              List.indexOf_append_of_not_mem htnot]
            have := List.indexOf_lt_length.mpr hfrom
            omega)
        hres
      exact ⟨hstep.1.trans hperm, hstep.2⟩

/-- On an acyclic edge set the rounds never fail. -/
theorem resolveRounds_complete (edges : List Edge) (hac : Acyclic edges) :
    ∀ (rounds : Nat) (remaining order : List Int), rounds = remaining.length →
      ∃ result, resolveRounds edges rounds remaining order = .ok result := by
  intro rounds
  induction rounds with
  | zero => intro remaining order _; exact ⟨order, rfl⟩
  | succ n ih =>
    intro remaining order hlen
    have hne : remaining ≠ [] := by
      intro h; rw [h] at hlen; cases hlen
    obtain ⟨t, ht, hr⟩ := exists_ready edges hac remaining hne
    rw [resolveRounds]
    cases hfind : remaining.find? (ready edges remaining) with
    | none =>
      rw [List.find?_eq_none] at hfind
      exact absurd hr (hfind t ht)
    | some u =>
      simp only
      have humem : u ∈ remaining := List.mem_of_find?_eq_some hfind
      exact ih (remaining.erase u) (order ++ [u])
        (by rw [List.length_erase_of_mem humem, ← hlen]; rfl)

/-- A successful `ResolveOrder` lists every task once, with every edge going forward. -/
theorem ResolveOrder_sound (taskSet : List Int) (edges : List Edge) (order : List Int)
    (h : ResolveOrder taskSet edges = .ok order) :
    order.Perm (taskIDs taskSet edges) ∧
      ∀ e ∈ edges, Precedes order e.fromTaskID e.toTaskID := by
  have := resolveRounds_sound edges (taskIDs taskSet edges).length (taskIDs taskSet edges) []
    order rfl (by simpa using nodup_taskIDs taskSet edges)
    (fun e he => by
      simp only [List.nil_append]
      exact ⟨(mem_taskIDs taskSet edges _).mpr (Or.inr ⟨e, he, Or.inl rfl⟩),
        (mem_taskIDs taskSet edges _).mpr (Or.inr ⟨e, he, Or.inr rfl⟩)⟩)
    (fun e _ hto => by cases hto)
    h
  simpa using this

/-- C10: for an acyclic edge set `ResolveOrder` returns an order that lists every task
once and in which the source of every edge precedes its target; for an edge set with a
cycle it fails with `CycleError`, returning no order.  The scenario edges resolve to
`[1, 2, 3]`, and with `3 → 1` added `ResolveOrder` fails. -/
theorem ResolveOrder_topological (taskSet : List Int) (edges : List Edge) :
    (Acyclic edges →
        ∃ order, ResolveOrder taskSet edges = .ok order ∧ order.Nodup ∧
          (∀ t, t ∈ order ↔ t ∈ taskSet ∨ ∃ e ∈ edges, e.fromTaskID = t ∨ e.toTaskID = t) ∧
          ∀ e ∈ edges, Precedes order e.fromTaskID e.toTaskID) ∧
      (HasCycle edges → ResolveOrder taskSet edges = .error .CycleError) ∧
      ResolveOrder [1, 2, 3] scenarioEdges = .ok [1, 2, 3] ∧
      ResolveOrder [1, 2, 3] scenarioEdgesWithCycle = .error .CycleError := by
  refine ⟨fun hac => ?_, fun hcyc => ?_, rfl, rfl⟩
  · obtain ⟨order, hres⟩ := resolveRounds_complete edges hac (taskIDs taskSet edges).length
      (taskIDs taskSet edges) [] rfl
    have hs := ResolveOrder_sound taskSet edges order hres
    refine ⟨order, hres, hs.1.nodup_iff.mpr (nodup_taskIDs taskSet edges), fun t => ?_, hs.2⟩
    rw [hs.1.mem_iff, mem_taskIDs]
  · cases hres : ResolveOrder taskSet edges with
    | error err => cases err; rfl
    | ok order =>
      exact absurd hcyc (acyclic_of_order edges order (ResolveOrder_sound taskSet edges order hres).2)

/-- Witness for C10: the scenario edges are acyclic, and with `3 → 1` they contain the
cycle `1 → 2 → 3 → 1`. -/
theorem ResolveOrder_topological_witness :
    Acyclic scenarioEdges ∧
      (∃ order, ResolveOrder [1, 2, 3] scenarioEdges = .ok order ∧ order.Nodup ∧
        (∀ t, t ∈ order ↔
          t ∈ [1, 2, 3] ∨ ∃ e ∈ scenarioEdges, e.fromTaskID = t ∨ e.toTaskID = t) ∧
        ∀ e ∈ scenarioEdges, Precedes order e.fromTaskID e.toTaskID) ∧
      HasCycle scenarioEdgesWithCycle ∧
      ResolveOrder [1, 2, 3] scenarioEdgesWithCycle = .error .CycleError := by
  have hac : Acyclic scenarioEdges :=
    acyclic_of_order scenarioEdges [1, 2, 3] (by decide)
  have hcyc : HasCycle scenarioEdgesWithCycle :=
    ⟨1, Relation.TransGen.tail
      (Relation.TransGen.tail (Relation.TransGen.single ⟨⟨1, 2⟩, by decide, rfl, rfl⟩)
        ⟨⟨2, 3⟩, by decide, rfl, rfl⟩)
      ⟨⟨3, 1⟩, by decide, rfl, rfl⟩⟩
  exact ⟨hac, (ResolveOrder_topological [1, 2, 3] scenarioEdges).1 hac, hcyc,
    (ResolveOrder_topological [1, 2, 3] scenarioEdgesWithCycle).2.1 hcyc⟩

end taskgraph

namespace clickhouse

theorem HasPrefix_slash (host : String) :
    HasPrefix host "/" = true ↔ host.data.head? = some '/' := by
  unfold HasPrefix
  have hs : "/".data = ['/'] := rfl
  rw [hs]
  cases host.data with
  | nil => simp [List.isPrefixOf]
  | cons c cs =>
    simp only [List.isPrefixOf, Bool.and_true, beq_iff_eq, List.head?_cons, Option.some.injEq]
    exact eq_comm

theorem dsn_eq_specDSN {τ : Type} (config : ConnectionConfig τ) :
    dsn config false = specDSN config := by
  have hp : protocol config = if config.Host.data.head? = some '/' then "unix" else "tcp" := by
    unfold protocol
    by_cases h : config.Host.data.head? = some '/'
    · rw [if_pos h, if_pos ((HasPrefix_slash _).mpr h)]
    · rw [if_neg h, if_neg (fun h2 => h ((HasPrefix_slash _).mp h2))]
  unfold dsn paramsAtLog specDSN baseDSN port
  rw [hp]
  apply String.ext
  by_cases hd : config.Database = "" <;> by_cases hpw : config.Password = "" <;>
    simp [hd, hpw, Join, String.data_append, List.append_assoc]

theorem openedDSNs_connect {τ κ δ : Type} (env : Env τ κ δ) (driver : Driver δ)
    (dbType : String) (config : ConnectionConfig τ) (connCtx : ConnectionContext)
    (tls : Bool) :
    openedDSNs (connect env driver dbType config connCtx tls).effects = [dsn config tls] := by
  unfold connect
  cases env.sqlOpen "clickhouse" (dsn config tls) <;> simp [openedDSNs]

/-- C11: for a configuration without TLS, the one DSN `Open` passes to `sql.Open` is
`<protocol>://<Host>:<port>?` followed by the `&`-joined parameters `username`, then
`database` only when non-empty, then `password` only when non-empty, with protocol `unix`
exactly when the host starts with `/` and port `9000` when the configured port is empty. -/
theorem Open_passes_specDSN {τ κ δ : Type} (env : Env τ κ δ) (driver : Driver δ)
    (dbType : String) (config : ConnectionConfig τ) (connCtx : ConnectionContext)
    (h : env.GetSslConfig config.TlsConfig = .ok none) :
    openedDSNs (Open env driver dbType config connCtx).effects = [specDSN config] := by
  unfold Open
  rw [h]
  simp only
  rw [openedDSNs_connect, dsn_eq_specDSN]

/-- Witness for C11: a Unix-socket configuration with database and password. -/
theorem Open_passes_specDSN_witness :
    plainEnv.GetSslConfig socketConfig.TlsConfig = .ok none ∧
      openedDSNs (Open plainEnv newDriver "CLICKHOUSE" socketConfig sampleContext).effects
        = ["unix:///var/run/clickhouse.sock:9000?username=default&database=analytics&password=s3cret"] :=
  ⟨rfl, Open_passes_specDSN plainEnv newDriver "CLICKHOUSE" socketConfig sampleContext rfl⟩

theorem loggedDSNs_Open_eq {τ κ δ : Type} (env : Env τ κ δ) (driver1 driver2 : Driver δ)
    (dbType1 dbType2 : String) (config : ConnectionConfig τ) (password : String)
    (connCtx1 connCtx2 : ConnectionContext) :
    loggedDSNs (Open env driver1 dbType1 { config with Password := password } connCtx1).effects
      = loggedDSNs (Open env driver2 dbType2 config connCtx2).effects := by
  unfold Open
  simp only
  rcases h : env.GetSslConfig config.TlsConfig with err | o
  · simp [loggedDSNs]
  · cases o with
    | none => simp only [loggedDSNs_connect]; rfl
    | some tc =>
      simp only
      cases h2 : env.RegisterTLSConfig "db.clickhouse.tls" tc with
      | some err => simp [loggedDSNs]
      | none =>
        simp only [loggedDSNs_append, loggedDSNs_connect]
        rfl

theorem loggedDSN_endsWith {τ : Type} (config : ConnectionConfig τ) (tls : Bool) :
    EndsWith (loggedDSN config tls) "password=<<redacted password>>" := by
  unfold EndsWith loggedDSN
  have hs : "&password=<<redacted password>>".data
      = "&".data ++ "password=<<redacted password>>".data := rfl
  rw [String.data_append, hs, ← List.append_assoc]
  exact List.suffix_append _ _

/-- C13: two configurations that agree on host, port, username, database and TLS setting
make `Open` log the same DSN, whatever their passwords (and whatever driver, type and
context it is called with); every logged DSN ends with the fixed token
`password=<<redacted password>>`, whether or not a password is set. -/
theorem loggedDSN_independent_of_password {τ κ δ : Type} (env : Env τ κ δ)
    (driver1 driver2 : Driver δ) (dbType1 dbType2 : String)
    (config1 config2 : ConnectionConfig τ) (connCtx1 connCtx2 : ConnectionContext)
    (hHost : config1.Host = config2.Host) (hPort : config1.Port = config2.Port)
    (hUser : config1.Username = config2.Username)
    (hDatabase : config1.Database = config2.Database)
    (hTls : config1.TlsConfig = config2.TlsConfig) :
    loggedDSNs (Open env driver1 dbType1 config1 connCtx1).effects
        = loggedDSNs (Open env driver2 dbType2 config2 connCtx2).effects ∧
      ∀ d ∈ loggedDSNs (Open env driver1 dbType1 config1 connCtx1).effects,
        EndsWith d "password=<<redacted password>>" := by
  constructor
  · have hc : config1 = { config2 with Password := config1.Password } := by
      cases config1
      cases config2
      simp only at hHost hPort hUser hDatabase hTls
      subst hHost hPort hUser hDatabase hTls
      rfl
    rw [hc]
    exact loggedDSNs_Open_eq env driver1 driver2 dbType1 dbType2 config2 _ connCtx1 connCtx2
  · intro d hd
    rcases loggedDSNs_Open env driver1 dbType1 config1 connCtx1 with h | ⟨tls, h⟩
    · rw [h] at hd; cases hd
    · rw [h] at hd
      rw [List.mem_singleton.mp hd]
      exact loggedDSN_endsWith config1 tls

/-- Witness for C13: the socket configuration with its password and with none, under TLS. -/
theorem loggedDSN_independent_of_password_witness :
    loggedDSNs (Open tlsEnv newDriver "CLICKHOUSE" socketConfig sampleContext).effects
        = loggedDSNs (Open tlsEnv newDriver "CLICKHOUSE"
            { socketConfig with Password := "" } sampleContext).effects ∧
      ∀ d ∈ loggedDSNs (Open tlsEnv newDriver "CLICKHOUSE" socketConfig sampleContext).effects,
        EndsWith d "password=<<redacted password>>" :=
  loggedDSN_independent_of_password tlsEnv newDriver newDriver "CLICKHOUSE" "CLICKHOUSE"
    socketConfig { socketConfig with Password := "" } sampleContext sampleContext
    rfl rfl rfl rfl rfl

end clickhouse

namespace ast

section HandOver
variable {α V S : Type}

theorem andThen_skip (f : S → S × Calls α V) : andThen f skip = f := by
  funext s
  simp [andThen, skip]

theorem skip_andThen (g : S → S × Calls α V) : andThen skip g = g := by
  funext s
  simp [andThen, skip]

theorem andThen_assoc (f g h : S → S × Calls α V) :
    andThen (andThen f g) h = andThen f (andThen g h) := by
  funext s
  simp [andThen, List.append_assoc]

theorem WalkOpt_eq_WalkList (vis : Visitor α V S) (w : V) (o : Option (Node α)) :
    WalkOpt vis w o = WalkList vis w o.toList := by
  cases o with
  | none => rw [WalkOpt, Option.toList, WalkList]
  | some n => rw [WalkOpt, Option.toList, WalkList, WalkList, andThen_skip]

theorem WalkList_append (vis : Visitor α V S) (w : V) (a b : List (Node α)) :
    WalkList vis w (a ++ b) = andThen (WalkList vis w a) (WalkList vis w b) := by
  induction a with
  | nil => rw [List.nil_append, WalkList, skip_andThen]
  | cons n ns ih => rw [List.cons_append, WalkList, WalkList, ih, andThen_assoc]

theorem enter_of_some (vis : Visitor α V S) (v w : V) (n : Node α)
    (ch : V → S → S × Calls α V) (s s1 : S) (h : vis.Visit v n s = (some w, s1)) :
    enter vis v n ch s = ((ch w s1).1, (v, n) :: (ch w s1).2) := by
  unfold enter
  rw [h]

theorem Walk_first_call (vis : Visitor α V S) (w : V) (c : Node α) (s : S) :
    (Walk vis w c s).2.head? = some (w, c) := by
  cases c <;> (rw [Walk]; unfold enter; split <;> rfl)

end HandOver

/-- C12: when `v.Visit(n)` returns the non-nil visitor `w`, the calls of `Walk(v, n)` are
that call followed by the calls of `Walk(w, child)` for the non-nil children of `n` in
order, each started in the state its predecessor left: every child is entered with `w`,
whatever the visits of earlier siblings returned, and the first call on a child is
`w.Visit(child)`. -/
theorem Walk_hands_returned_visitor_to_children {α V S : Type} (vis : Visitor α V S)
    (v w : V) (n : Node α) (s s1 : S) (h : vis.Visit v n s = (some w, s1)) :
    Walk vis v n s
        = ((WalkList vis w (children n) s1).1, (v, n) :: (WalkList vis w (children n) s1).2) ∧
      ∀ (c : Node α) (s2 : S), (Walk vis w c s2).2.head? = some (w, c) := by
  refine ⟨?_, fun c s2 => Walk_first_call vis w c s2⟩
  cases n <;>
    (rw [Walk, enter_of_some vis v w _ _ s s1 h]
     simp only [children, WalkOpt_eq_WalkList, WalkList_append, WalkList, skip,
       List.append_nil])

/-- Witness for C12: on the sample tree the root is visited by `outer`, its four children
by `inner`, although the visits of the children return `deeper`, which only the
grandchildren see. -/
theorem Walk_hands_returned_visitor_to_children_witness :
    handOverVisitor.Visit .outer sampleTree 0 = (some .inner, 1) ∧
      (Walk handOverVisitor .outer sampleTree 0
          = ((WalkList handOverVisitor .inner (children sampleTree) 1).1,
              (.outer, sampleTree) :: (WalkList handOverVisitor .inner (children sampleTree) 1).2) ∧
        ∀ (c : Node Nat) (s2 : Nat),
          (Walk handOverVisitor .inner c s2).2.head? = some (.inner, c)) ∧
      (Walk handOverVisitor .outer sampleTree 0).2.map Prod.fst
        = [.outer, .inner, .inner, .inner, .inner, .deeper, .deeper] :=
  ⟨rfl, Walk_hands_returned_visitor_to_children handOverVisitor .outer .inner sampleTree 0 1 rfl,
    rfl⟩

end ast
